import Mathlib

/-!
Verification of the listing synchronization and presentation-state subsystem
of the Food-Connect client (files `DonorDashboard.tsx` and `NewListing.tsx`).

The JavaScript code is shallowly embedded: numbers that flow through `Date`
arithmetic are modelled by `JSNum` (an integer timestamp or NaN), the clock and
the `Date` parser are threaded as explicit parameters, and the React state
setters become explicit state-passing on record types.
-/

set_option autoImplicit false

/-- A JavaScript number as it occurs in the date arithmetic of the dashboard:
either NaN (what `new Date(bad).getTime()` yields on an unparsable string) or
a finite timestamp value. `Date.prototype.getTime` always yields integer
milliseconds, so the finite values are integers. -/
inductive JSNum where
  | nan : JSNum
  | num : ℤ → JSNum
deriving DecidableEq, Repr

/-- Ceiling division of an integer by a natural number, written with the
floor division of `ℤ` so that it evaluates by kernel reduction. -/
def intCeilDiv (a : ℤ) (d : ℕ) : ℤ := -(-a / (d : ℤ))

theorem intCeilDiv_eq (a : ℤ) (d : ℕ) : intCeilDiv a d = ⌈(a : ℚ) / (d : ℚ)⌉ := by
  rw [intCeilDiv, ← Rat.floor_intCast_div_natCast (-a) d]
  rw [show (((-a : ℤ) : ℚ)) = -(a : ℚ) by push_cast; ring]
  rw [neg_div, Int.floor_neg, neg_neg]

namespace JSNum

/-- Subtraction; NaN propagates, as for JS `-`. -/
def sub : JSNum → JSNum → JSNum
  | num a, num b => num (a - b)
  | _, _ => nan

/-- JS `Math.ceil (x / d)` for a positive integer literal `d`: on an integer
millisecond difference the real division followed by `Math.ceil` is exactly
ceiling division; NaN propagates through both steps. -/
def ceilDiv (x : JSNum) (d : ℕ) : JSNum :=
  match x with
  | num a => num (intCeilDiv a d)
  | nan => nan

theorem ceilDiv_num (a : ℤ) (d : ℕ) :
    ceilDiv (num a) d = num ⌈(a : ℚ) / (d : ℚ)⌉ := by
  rw [ceilDiv, intCeilDiv_eq]

/-- JS `Math.max` on two arguments: NaN if either argument is NaN. -/
def max2 : JSNum → JSNum → JSNum
  | num a, num b => num (if a ≤ b then b else a)
  | _, _ => nan

theorem max2_num (a b : ℤ) : max2 (num a) (num b) = num (max a b) := by
  simp [max2, max_def]

end JSNum

/-- Whether a character is matched by JS string `trim`; `Char.isWhitespace`
covers the whitespace that occurs in the listing strings. -/
def jsWhite (c : Char) : Bool := c.isWhitespace

/-- Drop leading and trailing whitespace from a character list (JS `trim`). -/
def trimChars (l : List Char) : List Char :=
  ((l.dropWhile jsWhite).reverse.dropWhile jsWhite).reverse

/-- JS `String.prototype.trim` on the embedded strings. -/
def jsTrim (s : String) : String := String.mk (trimChars s.data)

/-- JS `split(sep)` for a one-character separator, on character lists:
`"a,b"` gives `["a","b"]`, `""` gives `[""]`, `"a,"` gives `["a",""]`. -/
def splitChar (sep : Char) : List Char → List (List Char)
  | [] => [[]]
  | c :: cs =>
    if c = sep then [] :: splitChar sep cs
    else
      match splitChar sep cs with
      | [] => [[c]]
      | t :: ts => (c :: t) :: ts

/-- JS `s.split(',').map(t => t.trim())` as used for dietary-restriction
strings in both source files. -/
def splitTrimComma (s : String) : List String :=
  (splitChar ',' s.data).map (fun l => String.mk (trimChars l))

/-- `startsWithChars needle hay` means `needle` occurs at the front of `hay`. -/
def startsWithChars : List Char → List Char → Bool
  | [], _ => true
  | _ :: _, [] => false
  | a :: as, b :: bs => a = b && startsWithChars as bs

/-- JS `hay.includes(needle)`: contiguous-substring test. -/
def hasSub (needle : List Char) : List Char → Bool
  | [] => needle.isEmpty
  | c :: rest => startsWithChars needle (c :: rest) || hasSub needle rest

/-- JS `hay.includes(needle)` on the embedded strings. -/
def jsIncludes (hay needle : String) : Bool := hasSub needle.data hay.data

/-- JS `toLowerCase`, character by character. -/
def jsToLower (s : String) : String := String.mk (s.data.map Char.toLower)

/-- Wire shape of a listing as the dashboard receives it (the `Listing`
interface fields that come from the server). -/
structure ServerListing where
  id : ℤ
  title : String
  organization : String
  location : String
  description : String
  quantity : ℤ
  dietaryRestrictions : String
  availabilityStatus : String
  expirationDate : String
  imageUrl : List String
  userId : ℤ
deriving DecidableEq, Repr

/-- A decoded listing as built inside `fetchListings`: the server fields
spread through, plus the derived display fields. -/
structure ViewListing where
  id : ℤ
  title : String
  organization : String
  location : String
  description : String
  quantity : ℤ
  dietaryRestrictions : String
  availabilityStatus : String
  expirationDate : String
  imageUrl : List String
  userId : ℤ
  tags : List String
  status : String
  duration : JSNum
  reservations : ℤ
  image : Option String
deriving DecidableEq, Repr

/-- The duration computation of `fetchListings`:
`Math.max(0, Math.ceil((expirationDate.getTime() - now.getTime()) / (1000*60*60)))`,
where `expTime` is the parsed expiration timestamp (NaN when unparsable) and
`nowTime` the clock reading. -/
def durationHours (expTime nowTime : JSNum) : JSNum :=
  JSNum.max2 (JSNum.num 0) (JSNum.ceilDiv (JSNum.sub expTime nowTime) (1000 * 60 * 60))

/-- The body of the `result.data.map` callback in `fetchListings`, with the
`Date` parser and the callback's own `new Date()` reading passed explicitly:
tags from a guarded comma-split of the dietary string, status aliasing
availability, the duration computation, a zero reservation default, and the
head of the image-URL array. -/
def decode (dateParse : String → JSNum) (l : ServerListing) (nowTime : JSNum) : ViewListing :=
  { id := l.id
    title := l.title
    organization := l.organization
    location := l.location
    description := l.description
    quantity := l.quantity
    dietaryRestrictions := l.dietaryRestrictions
    availabilityStatus := l.availabilityStatus
    expirationDate := l.expirationDate
    imageUrl := l.imageUrl
    userId := l.userId
    tags := if l.dietaryRestrictions = "" then [] else splitTrimComma l.dietaryRestrictions
    status := l.availabilityStatus
    duration := durationHours (dateParse l.expirationDate) nowTime
    reservations := 0
    image := l.imageUrl.head? }

example : splitTrimComma "Vegan, Gluten-Free" = ["Vegan", "Gluten-Free"] := by decide
example : splitTrimComma "Vegan," = ["Vegan", ""] := by decide
example : durationHours (JSNum.num 7200000) (JSNum.num 0) = JSNum.num 2 := by decide
example : durationHours JSNum.nan (JSNum.num 0) = JSNum.nan := by decide
example : durationHours (JSNum.num 0) (JSNum.num 7200000) = JSNum.num 0 := by decide

/-- The `result.data.map` loop of `fetchListings`. Each invocation of the
callback executes `const now = new Date()`, a fresh clock read, so the `i`-th
record is decoded at `clock i`: the clock reads are threaded as an explicit
stream indexed by the order in which they happen. -/
def mapDecode (dateParse : String → JSNum) (clock : ℕ → ℤ) :
    ℕ → List ServerListing → List ViewListing
  | _, [] => []
  | i, l :: ls => decode dateParse l (JSNum.num (clock i)) :: mapDecode dateParse clock (i + 1) ls

/-- The transformation applied to `result.data` in `fetchListings`. -/
def formatListings (dateParse : String → JSNum) (clock : ℕ → ℤ)
    (data : List ServerListing) : List ViewListing :=
  mapDecode dateParse clock 0 data

/-- State held by the dashboard component: the listing collection, the
loading flag and the error slot (`useState` hooks of `DonorDashboard`). -/
structure StoreState where
  listings : List ViewListing
  isLoading : Bool
  error : Option String
deriving DecidableEq, Repr

/-- Outcome of the GET request observed by `fetchListings`: a non-2xx
response with its status, or a parsed JSON envelope whose `success` flag is a
boolean and whose `data` is either an array of listings or something that is
not an array (`none`). -/
inductive ListResponse where
  | httpError : ℕ → ListResponse
  | envelope : Bool → Option (List ServerListing) → ListResponse
deriving DecidableEq, Repr

/-- Whether the list operation fails: non-2xx status, a false success flag,
or a payload that is not an array. -/
def ListResponse.failed : ListResponse → Bool
  | httpError _ => true
  | envelope ok data => !(ok && data.isSome)

/-- The state of the dashboard after `fetchListings` completes, given the
prior state and the observed response. Mirrors the source: a non-2xx
response throws `Error ...: Failed to fetch listings`; a false success flag
or a non-array payload throws `Invalid response format`; the catch block
stores the message in the error slot and leaves the collection alone; only
the success path replaces the collection; the finally block always clears
the loading flag. -/
def fetchListings (dateParse : String → JSNum) (clock : ℕ → ℤ)
    (st : StoreState) (resp : ListResponse) : StoreState :=
  match resp with
  | ListResponse.httpError status =>
      { st with
        error := some ("Error " ++ toString status ++ ": Failed to fetch listings")
        isLoading := false }
  | ListResponse.envelope ok data =>
      match ok, data with
      | true, some arr =>
          { listings := formatListings dateParse clock arr
            isLoading := false
            error := none }
      | _, _ =>
          { st with error := some "Invalid response format", isLoading := false }

/-- JS `x || fallback` for the message fields of error envelopes: a missing
or empty message string falls back. -/
def jsOrElse (m : Option String) (fallback : String) : String :=
  match m with
  | some s => if s = "" then fallback else s
  | none => fallback

/-- Outcome of the DELETE request observed by `handleDelete`: a non-2xx
response carrying the status and the optional `message` of its parsed error
body, or a 2xx envelope with its `success` flag and optional `message`. -/
inductive DeleteResponse where
  | httpError : ℕ → Option String → DeleteResponse
  | envelope : Bool → Option String → DeleteResponse
deriving DecidableEq, Repr

/-- Whether the delete operation fails: non-2xx, or a false success flag. -/
def DeleteResponse.failed : DeleteResponse → Bool
  | httpError _ _ => true
  | envelope ok _ => !ok

/-- The state of the dashboard after `handleDelete id` completes. Mirrors
the source: without user confirmation it returns at once; a non-2xx response
throws the envelope message (or the status fallback); a 2xx envelope with a
true success flag filters the listing out of the collection; a false success
flag throws its message; the catch block prefixes `Failed to delete
listing:` and stores the result in the error slot. -/
def handleDelete (st : StoreState) (id : ℤ) (confirmed : Bool)
    (resp : DeleteResponse) : StoreState :=
  if !confirmed then st
  else
    match resp with
    | DeleteResponse.httpError status m =>
        { st with
          error := some ("Failed to delete listing: " ++
            jsOrElse m ("Error " ++ toString status ++ ": Failed to delete listing")) }
    | DeleteResponse.envelope true _ =>
        { st with listings := st.listings.filter (fun l => l.id ≠ id) }
    | DeleteResponse.envelope false m =>
        { st with
          error := some ("Failed to delete listing: " ++
            jsOrElse m "Failed to delete listing") }

/-- The search predicate of `filteredListings`: case-insensitive substring
match of the query against the title, the organization, or any tag. -/
def matchesQuery (q : String) (l : ViewListing) : Bool :=
  jsIncludes (jsToLower l.title) (jsToLower q) ||
  jsIncludes (jsToLower l.organization) (jsToLower q) ||
  l.tags.any (fun tag => jsIncludes (jsToLower tag) (jsToLower q))

/-- `filteredListings` of the dashboard: filter the collection by the search
query. -/
def filteredListings (listings : List ViewListing) (q : String) : List ViewListing :=
  listings.filter (matchesQuery q)

/-- The draft object held by the `NewListing` form (`useState` initial shape);
the attached image file is abstract, carried as an optional opaque blob. -/
structure DraftListing where
  title : String
  organization : String
  location : String
  quantity : ℤ
  dietaryRestrictions : String
  description : String
  availabilityStatus : String
  expirationDate : String
  image : Option String
deriving DecidableEq, Repr

/-- The full form state of `NewListing`: the draft, the pending tag input,
the submitting flag and the inline error string. -/
structure DraftState where
  listing : DraftListing
  tagInput : String
  isSubmitting : Bool
  error : String
deriving DecidableEq, Repr

/-- `addTag` of `NewListing`: when the trimmed pending input is non-empty and
not already a substring of the dietary-restriction string, append it with a
`, ` separator (or make it the whole string when the string was empty) and
clear the pending input; otherwise do nothing. -/
def addTag (st : DraftState) : DraftState :=
  let t := jsTrim st.tagInput
  if t ≠ "" && !(jsIncludes st.listing.dietaryRestrictions t) then
    let newRestrictions :=
      if st.listing.dietaryRestrictions ≠ "" then
        st.listing.dietaryRestrictions ++ ", " ++ t
      else t
    { st with listing := { st.listing with dietaryRestrictions := newRestrictions }
              tagInput := "" }
  else st

/-- `removeTag` of `NewListing`: split on commas, trim, drop the tag equal to
the one removed, re-join with `, `. -/
def removeTag (st : DraftState) (tagToRemove : String) : DraftState :=
  let tags := splitTrimComma st.listing.dietaryRestrictions
  let updatedTags := String.intercalate ", " (tags.filter (fun tag => tag ≠ tagToRemove))
  { st with listing := { st.listing with dietaryRestrictions := updatedTags } }

/-- `dietaryTags` of `NewListing`: the derived display view of the
dietary-restriction string, dropping segments that trim to the empty
string (JS truthiness filter). -/
def dietaryTags (s : String) : List String :=
  if s = "" then [] else (splitTrimComma s).filter (fun tag => tag ≠ "")

/-- The multipart payload built by `handleSubmit` via `FormData.append`. -/
structure SubmissionPayload where
  title : String
  quantity : String
  description : String
  dietaryRestrictions : String
  location : String
  availabilityStatus : String
  expirationDate : String
  images : String
deriving DecidableEq, Repr

/-- Outcome of the POST request observed by `handleSubmit`: a non-2xx
response with its status and the optional `message` of its error body, or a
2xx response. -/
inductive CreateResponse where
  | httpError : ℕ → Option String → CreateResponse
  | created : CreateResponse
deriving DecidableEq, Repr

/-- Result of a `handleSubmit` run: the form state afterwards, the network
requests dispatched during the run, and whether the page navigated away. -/
structure SubmitOutcome where
  state : DraftState
  requests : List SubmissionPayload
  navigated : Bool
deriving DecidableEq, Repr

/-- `handleSubmit` of `NewListing`, with the `Date`-to-ISO conversion of the
expiration input threaded as `toISO` (`none` models the `RangeError` that
`toISOString` throws on an invalid date, which the catch block turns into its
message). The missing-image check runs before the payload is built, sets the
inline error, clears the submitting flag and dispatches nothing; otherwise
one request is dispatched and the response decides between navigation and the
error slot. -/
def handleSubmit (toISO : String → Option String) (st : DraftState)
    (resp : CreateResponse) : SubmitOutcome :=
  let st0 := { st with error := "", isSubmitting := true }
  match st0.listing.image with
  | none =>
      { state := { st0 with error := "Please upload an image for your listing"
                            isSubmitting := false }
        requests := []
        navigated := false }
  | some img =>
      match toISO st0.listing.expirationDate with
      | none =>
          { state := { st0 with error := "Invalid time value", isSubmitting := false }
            requests := []
            navigated := false }
      | some iso =>
          let payload : SubmissionPayload :=
            { title := st0.listing.title
              quantity := toString st0.listing.quantity
              description := st0.listing.description
              dietaryRestrictions := st0.listing.dietaryRestrictions
              location := st0.listing.location
              availabilityStatus := st0.listing.availabilityStatus
              expirationDate := iso
              images := img }
          match resp with
          | CreateResponse.httpError status m =>
              { state := { st0 with
                  error := jsOrElse m ("Error " ++ toString status ++ ": Failed to create listing")
                  isSubmitting := false }
                requests := [payload]
                navigated := false }
          | CreateResponse.created =>
              { state := { st0 with isSubmitting := false }
                requests := [payload]
                navigated := true }

/-- A concrete server listing used to instantiate the universally quantified
theorems below. -/
def sampleServer : ServerListing :=
  { id := 1
    title := "Fresh Bread and Pastries"
    organization := "City Bakery"
    location := "12 Main St"
    description := "Assorted loaves"
    quantity := 3
    dietaryRestrictions := "Vegan, Gluten-Free"
    availabilityStatus := "Available"
    expirationDate := "2025-03-01T10:00"
    imageUrl := ["a.jpg", "b.jpg"]
    userId := 7 }

theorem startsWithChars_self (l : List Char) : startsWithChars l l = true := by
  induction l with
  | nil => rfl
  | cons c cs ih => simp [startsWithChars, ih]

theorem hasSub_append_self (n pre : List Char) : hasSub n (pre ++ n) = true := by
  induction pre with
  | nil =>
    cases n with
    | nil => rfl
    | cons c cs => simp [hasSub, startsWithChars_self]
  | cons p ps ih => simp [hasSub, ih]

theorem hasSub_nil_needle (l : List Char) : hasSub [] l = true := by
  cases l with
  | nil => rfl
  | cons c cs => simp [hasSub, startsWithChars]

theorem jsIncludes_empty_needle (s : String) : jsIncludes s "" = true := by
  simpa [jsIncludes] using hasSub_nil_needle s.data

theorem append_ne_empty_left (a b : String) (h : a.data ≠ []) : a ++ b ≠ "" := by
  intro he
  apply h
  have hd : (a ++ b).data = [] := by rw [he]
  rw [String.data_append] at hd
  exact (List.append_eq_nil.mp hd).1

theorem mapDecode_const (dateParse : String → JSNum) (t : ℤ)
    (data : List ServerListing) :
    ∀ i, mapDecode dateParse (fun _ => t) i data
      = data.map (fun l => decode dateParse l (JSNum.num t)) := by
  induction data with
  | nil => intro i; rfl
  | cons l ls ih => intro i; simp [mapDecode, ih]

theorem jsIncludes_append_self (x t : String) : jsIncludes (x ++ t) t = true := by
  rw [jsIncludes, String.data_append]
  exact hasSub_append_self t.data x.data

theorem jsIncludes_self (t : String) : jsIncludes t t = true := by
  have h := hasSub_append_self t.data []
  simpa [jsIncludes] using h

theorem jsIncludes_after_add (d t : String) :
    jsIncludes (if d ≠ "" then d ++ ", " ++ t else t) t = true := by
  by_cases hd : d = ""
  · simp [hd, jsIncludes_self]
  · simp [hd, jsIncludes_append_self]

theorem addTag_noop (st : DraftState)
    (h : jsTrim st.tagInput = "" ∨
         jsIncludes st.listing.dietaryRestrictions (jsTrim st.tagInput) = true) :
    addTag st = st := by
  rcases h with h | h <;> simp [addTag, h]

theorem addTag_appends (st : DraftState) (h1 : jsTrim st.tagInput ≠ "")
    (h2 : jsIncludes st.listing.dietaryRestrictions (jsTrim st.tagInput) = false) :
    addTag st = { st with
      listing := { st.listing with
        dietaryRestrictions :=
          if st.listing.dietaryRestrictions ≠ "" then
            st.listing.dietaryRestrictions ++ ", " ++ jsTrim st.tagInput
          else jsTrim st.tagInput },
      tagInput := "" } := by
  simp [addTag, h1, h2]

theorem pre_append_ne_empty (a b c : String) (h : a.data ≠ []) : a ++ b ++ c ≠ "" := by
  apply append_ne_empty_left
  rw [String.data_append]
  intro hx
  exact h (List.append_eq_nil.mp hx).1

/-- Claim C6: for every server listing, the decoded `tags` field is the
ordered sequence of trimmed comma-separated segments of the
dietary-restriction string; the empty string yields the empty sequence, and
`Vegan, Gluten-Free` yields exactly `[Vegan, Gluten-Free]`. -/
theorem decode_tags_spec (dateParse : String → JSNum) (l : ServerListing) (t : JSNum) :
    (l.dietaryRestrictions = "" → (decode dateParse l t).tags = []) ∧
    (l.dietaryRestrictions ≠ "" →
      (decode dateParse l t).tags = splitTrimComma l.dietaryRestrictions) ∧
    (l.dietaryRestrictions = "Vegan, Gluten-Free" →
      (decode dateParse l t).tags = ["Vegan", "Gluten-Free"]) := by
  refine ⟨fun h => by simp [decode, h], fun h => by simp [decode, h], fun h => ?_⟩
  simp only [decode, h]
  decide

/-- Witness for C6 at a concrete listing: the sample dietary string decodes
to the two trimmed tags, and an empty dietary string decodes to no tags. -/
theorem decode_tags_spec_w :
    (decode (fun _ => JSNum.nan) sampleServer JSNum.nan).tags = ["Vegan", "Gluten-Free"] ∧
    (decode (fun _ => JSNum.nan)
      { sampleServer with dietaryRestrictions := "" } JSNum.nan).tags = [] := by
  constructor
  · exact (decode_tags_spec (fun _ => JSNum.nan) sampleServer JSNum.nan).2.2 rfl
  · exact (decode_tags_spec (fun _ => JSNum.nan)
      { sampleServer with dietaryRestrictions := "" } JSNum.nan).1 rfl

/-- Claim C10: decode keeps empty comma-delimited segments of a non-empty
dietary string as empty-string tags, while the draft form's `dietaryTags`
display drops them; `Vegan,` decodes to `[Vegan, ""]` but displays as
`[Vegan]`. -/
theorem decode_tags_keep_empty (dateParse : String → JSNum) (l : ServerListing)
    (t : JSNum) (h : l.dietaryRestrictions ≠ "") :
    (decode dateParse l t).tags = splitTrimComma l.dietaryRestrictions ∧
    dietaryTags l.dietaryRestrictions
      = ((decode dateParse l t).tags).filter (fun tag => tag ≠ "") ∧
    (l.dietaryRestrictions = "Vegan," →
      (decode dateParse l t).tags = ["Vegan", ""] ∧
      "" ∈ (decode dateParse l t).tags ∧
      dietaryTags l.dietaryRestrictions = ["Vegan"]) := by
  refine ⟨by simp [decode, h], by simp [decode, dietaryTags, h], fun hv => ?_⟩
  simp only [decode, dietaryTags, hv, h]
  refine ⟨by decide, by decide, by decide⟩

/-- Witness for C10 at a concrete listing with a trailing comma. -/
theorem decode_tags_keep_empty_w :
    (decode (fun _ => JSNum.nan)
      { sampleServer with dietaryRestrictions := "Vegan," } JSNum.nan).tags = ["Vegan", ""] ∧
    dietaryTags "Vegan," = ["Vegan"] := by
  have h := decode_tags_keep_empty (fun _ => JSNum.nan)
    { sampleServer with dietaryRestrictions := "Vegan," } JSNum.nan (by decide)
  exact ⟨(h.2.2 rfl).1, (h.2.2 rfl).2.2⟩

/-- Claim C5: submitting a draft without an attached image sets the inline
validation error, dispatches zero network requests, leaves the draft's field
values unchanged, clears the submitting flag, and does not navigate away. -/
theorem handleSubmit_no_image (toISO : String → Option String) (st : DraftState)
    (resp : CreateResponse) (h : st.listing.image = none) :
    (handleSubmit toISO st resp).requests = [] ∧
    (handleSubmit toISO st resp).state.error = "Please upload an image for your listing" ∧
    (handleSubmit toISO st resp).state.error ≠ "" ∧
    (handleSubmit toISO st resp).state.isSubmitting = false ∧
    (handleSubmit toISO st resp).state.listing = st.listing ∧
    (handleSubmit toISO st resp).navigated = false := by
  simp [handleSubmit, h]

/-- A concrete draft with no attached image. -/
def sampleDraft : DraftState :=
  { listing :=
    { title := "Bread"
      organization := "City Bakery"
      location := "12 Main St"
      quantity := 1
      dietaryRestrictions := ""
      description := "Loaves"
      availabilityStatus := "Available"
      expirationDate := "2025-03-01T10:00"
      image := none }
    tagInput := ""
    isSubmitting := false
    error := "" }

/-- Witness for C5 at a concrete imageless draft. -/
theorem handleSubmit_no_image_w :
    (handleSubmit (fun _ => none) sampleDraft CreateResponse.created).requests = [] ∧
    (handleSubmit (fun _ => none) sampleDraft CreateResponse.created).state.error
      = "Please upload an image for your listing" ∧
    (handleSubmit (fun _ => none) sampleDraft CreateResponse.created).state.error ≠ "" ∧
    (handleSubmit (fun _ => none) sampleDraft CreateResponse.created).state.isSubmitting = false ∧
    (handleSubmit (fun _ => none) sampleDraft CreateResponse.created).state.listing
      = sampleDraft.listing ∧
    (handleSubmit (fun _ => none) sampleDraft CreateResponse.created).navigated = false :=
  handleSubmit_no_image (fun _ => none) sampleDraft CreateResponse.created rfl

/-- Claim C9: the tag add operation is a silent no-op (state unchanged, no
error raised) when the trimmed pending input is empty or already a substring
of the dietary-restriction string; otherwise it appends the trimmed input
with a `, ` separator (or makes it the whole string when the string was
empty) without touching the error slot; and adding the same tag twice leaves
the dietary-restriction string, hence the derived tags, unchanged after the
second add. -/
theorem addTag_spec (st : DraftState) :
    ((jsTrim st.tagInput = "" ∨
      jsIncludes st.listing.dietaryRestrictions (jsTrim st.tagInput) = true) →
      addTag st = st) ∧
    (jsTrim st.tagInput ≠ "" →
      jsIncludes st.listing.dietaryRestrictions (jsTrim st.tagInput) = false →
      (addTag st).listing.dietaryRestrictions =
        (if st.listing.dietaryRestrictions = "" then jsTrim st.tagInput
         else st.listing.dietaryRestrictions ++ ", " ++ jsTrim st.tagInput) ∧
      (addTag st).error = st.error) ∧
    (addTag { addTag st with tagInput := st.tagInput }).listing.dietaryRestrictions
      = (addTag st).listing.dietaryRestrictions := by
  refine ⟨addTag_noop st, fun h1 h2 => ?_, ?_⟩
  · rw [addTag_appends st h1 h2]
    by_cases hd : st.listing.dietaryRestrictions = "" <;> simp [hd]
  · by_cases h1 : jsTrim st.tagInput = ""
    · rw [addTag_noop st (Or.inl h1),
        show ({ st with tagInput := st.tagInput } : DraftState) = st from rfl,
        addTag_noop st (Or.inl h1)]
    · by_cases h2 : jsIncludes st.listing.dietaryRestrictions (jsTrim st.tagInput) = true
      · rw [addTag_noop st (Or.inr h2),
          show ({ st with tagInput := st.tagInput } : DraftState) = st from rfl,
          addTag_noop st (Or.inr h2)]
      · have h2f : jsIncludes st.listing.dietaryRestrictions (jsTrim st.tagInput) = false := by
          simpa using h2
        rw [addTag_appends st h1 h2f]
        rw [addTag_noop _ (Or.inr (jsIncludes_after_add st.listing.dietaryRestrictions
          (jsTrim st.tagInput)))]

/-- The sample draft with `Vegan` typed in the pending tag input. -/
def sampleDraftTyping : DraftState := { sampleDraft with tagInput := "Vegan" }

/-- The sample draft holding the tag `Vegan` with `Vegan` typed again. -/
def sampleDraftDup : DraftState :=
  { sampleDraft with
    listing := { sampleDraft.listing with dietaryRestrictions := "Vegan" },
    tagInput := "Vegan" }

/-- Witness for C9 at a concrete draft: adding `Vegan` to an empty dietary
string sets the string to `Vegan`, and adding a duplicate is a no-op. -/
theorem addTag_spec_w :
    (addTag sampleDraftTyping).listing.dietaryRestrictions = "Vegan" ∧
    addTag sampleDraftDup = sampleDraftDup := by
  constructor
  · have h := (addTag_spec sampleDraftTyping).2.1 (by decide) (by decide)
    rw [h.1]
    decide
  · exact (addTag_spec sampleDraftDup).1 (Or.inr (by decide))

/-- Claim C3: refresh is all-or-nothing. Whenever the list operation fails
(non-2xx status, a false success flag, or a non-array payload), the error
slot holds a non-empty message, the previously held collection is unchanged
and the loading flag is cleared; only when the envelope is a success with an
array payload is the whole collection replaced by the decoded records. -/
theorem fetchListings_all_or_nothing (dateParse : String → JSNum) (clock : ℕ → ℤ)
    (st : StoreState) (resp : ListResponse) :
    (resp.failed = true →
      (∃ m, (fetchListings dateParse clock st resp).error = some m ∧ m ≠ "") ∧
      (fetchListings dateParse clock st resp).listings = st.listings ∧
      (fetchListings dateParse clock st resp).isLoading = false) ∧
    (∀ arr, resp = ListResponse.envelope true (some arr) →
      fetchListings dateParse clock st resp =
        { listings := formatListings dateParse clock arr
          isLoading := false
          error := none }) := by
  constructor
  · intro hf
    cases resp with
    | httpError status =>
        exact ⟨⟨_, rfl, pre_append_ne_empty _ _ _ (by decide)⟩, rfl, rfl⟩
    | envelope ok data =>
        cases ok with
        | false => cases data <;> exact ⟨⟨_, rfl, by decide⟩, rfl, rfl⟩
        | true =>
            cases data with
            | none => exact ⟨⟨_, rfl, by decide⟩, rfl, rfl⟩
            | some arr => simp [ListResponse.failed] at hf
  · rintro arr rfl
    rfl

/-- A concrete decoded listing and a concrete store state holding it. -/
def sampleView : ViewListing := decode (fun _ => JSNum.nan) sampleServer (JSNum.num 0)

/-- A concrete dashboard state with one listing and no error. -/
def sampleStore : StoreState :=
  { listings := [sampleView], isLoading := true, error := none }

/-- Witness for C3 at a concrete store and a concrete HTTP 500 failure. -/
theorem fetchListings_all_or_nothing_w :
    ListResponse.failed (ListResponse.httpError 500) = true ∧
    (∃ m, (fetchListings (fun _ => JSNum.nan) (fun _ => 0) sampleStore
      (ListResponse.httpError 500)).error = some m ∧ m ≠ "") ∧
    (fetchListings (fun _ => JSNum.nan) (fun _ => 0) sampleStore
      (ListResponse.httpError 500)).listings = sampleStore.listings ∧
    (fetchListings (fun _ => JSNum.nan) (fun _ => 0) sampleStore
      (ListResponse.httpError 500)).isLoading = false :=
  ⟨rfl, (fetchListings_all_or_nothing (fun _ => JSNum.nan) (fun _ => 0) sampleStore
    (ListResponse.httpError 500)).1 rfl⟩

/-- Claim C4: a confirmed delete whose request fails (non-2xx, or a 2xx
envelope with a false success flag) leaves the collection exactly as it was
and sets a non-empty error message; the identifier is filtered out of the
collection only on a confirmed successful response; without confirmation
nothing happens at all. -/
theorem handleDelete_spec (st : StoreState) (id : ℤ) (resp : DeleteResponse) :
    (resp.failed = true →
      (handleDelete st id true resp).listings = st.listings ∧
      ∃ m, (handleDelete st id true resp).error = some m ∧ m ≠ "") ∧
    (resp.failed = false →
      (handleDelete st id true resp).listings
        = st.listings.filter (fun l => l.id ≠ id)) ∧
    handleDelete st id false resp = st := by
  refine ⟨?_, ?_, rfl⟩
  · intro hf
    cases resp with
    | httpError status m =>
        exact ⟨rfl, _, rfl, append_ne_empty_left _ _ (by decide)⟩
    | envelope ok m =>
        cases ok with
        | true => simp [DeleteResponse.failed] at hf
        | false => exact ⟨rfl, _, rfl, append_ne_empty_left _ _ (by decide)⟩
  · intro hs
    cases resp with
    | httpError status m => simp [DeleteResponse.failed] at hs
    | envelope ok m =>
        cases ok with
        | true => rfl
        | false => simp [DeleteResponse.failed] at hs

/-- Witness for C4 at a concrete store and a concrete HTTP 404 rejection. -/
theorem handleDelete_spec_w :
    DeleteResponse.failed (DeleteResponse.httpError 404 none) = true ∧
    (handleDelete sampleStore 1 true (DeleteResponse.httpError 404 none)).listings
      = sampleStore.listings ∧
    ∃ m, (handleDelete sampleStore 1 true
      (DeleteResponse.httpError 404 none)).error = some m ∧ m ≠ "" :=
  ⟨rfl, (handleDelete_spec sampleStore 1 (DeleteResponse.httpError 404 none)).1 rfl⟩

/-- Claim C7: the search filter returns exactly the listings whose title,
organization, or some tag contains the query case-insensitively; the empty
query returns the whole collection unchanged in order and contents; and the
result is a sublist of the store's collection, which the pure function never
mutates. -/
theorem filteredListings_spec (listings : List ViewListing) (q : String) :
    filteredListings listings "" = listings ∧
    (filteredListings listings q).Sublist listings ∧
    (∀ x, x ∈ filteredListings listings q ↔
      x ∈ listings ∧
        (jsIncludes (jsToLower x.title) (jsToLower q) = true ∨
         jsIncludes (jsToLower x.organization) (jsToLower q) = true ∨
         ∃ tag, tag ∈ x.tags ∧ jsIncludes (jsToLower tag) (jsToLower q) = true)) := by
  refine ⟨?_, List.filter_sublist _, ?_⟩
  · have hp : ∀ x : ViewListing, matchesQuery "" x = true := by
      intro x
      have h1 : jsIncludes (jsToLower x.title) (jsToLower "") = true := hasSub_nil_needle _
      simp [matchesQuery, h1]
    rw [filteredListings]
    exact List.filter_eq_self.mpr (fun a _ => hp a)
  · intro x
    simp only [filteredListings, List.mem_filter, matchesQuery, List.any_eq_true,
      Bool.or_eq_true]
    constructor
    · rintro ⟨hm, hq⟩
      exact ⟨hm, or_assoc.mp hq⟩
    · rintro ⟨hm, hq⟩
      exact ⟨hm, or_assoc.mpr hq⟩

theorem durationHours_num (e t : ℤ) :
    durationHours (JSNum.num e) (JSNum.num t)
      = JSNum.num (max 0 ⌈((e : ℚ) - (t : ℚ)) / (1000 * 60 * 60)⌉) := by
  rw [durationHours,
    show JSNum.sub (JSNum.num e) (JSNum.num t) = JSNum.num (e - t) from rfl,
    JSNum.ceilDiv_num, JSNum.max2_num]
  congr 2
  push_cast
  ring_nf

theorem durationHours_nan (t : JSNum) : durationHours JSNum.nan t = JSNum.nan := by
  cases t <;> rfl

/-- Counterexample to claim C1 as stated: with an unparsable expiration date
`new Date(s).getTime()` is NaN, and `Math.max(0, Math.ceil(NaN))` is NaN, so
the decoded duration is NaN rather than 0. -/
theorem decode_duration_unparsable_cex :
    (decode (fun _ => JSNum.nan) sampleServer (JSNum.num 0)).duration = JSNum.nan ∧
    (decode (fun _ => JSNum.nan) sampleServer (JSNum.num 0)).duration ≠ JSNum.num 0 := by
  decide

/-- Claim C1 (amended): when the expiration string parses to a timestamp `e`,
the decoded duration is the non-negative integer `max 0` of the ceiling of
`(e - now) / (1000*60*60)`, and it is 0 whenever the expiration is at or
before the evaluation time; when the expiration string is unparsable, decode
still does not fail, but the duration is NaN rather than 0. -/
theorem decode_duration_spec (dateParse : String → JSNum) (l : ServerListing) (t : ℤ) :
    (∀ e : ℤ, dateParse l.expirationDate = JSNum.num e →
      (decode dateParse l (JSNum.num t)).duration
        = JSNum.num (max 0 ⌈((e : ℚ) - (t : ℚ)) / (1000 * 60 * 60)⌉) ∧
      (0 : ℤ) ≤ max 0 ⌈((e : ℚ) - (t : ℚ)) / (1000 * 60 * 60)⌉ ∧
      (e ≤ t → (decode dateParse l (JSNum.num t)).duration = JSNum.num 0)) ∧
    (dateParse l.expirationDate = JSNum.nan →
      (decode dateParse l (JSNum.num t)).duration = JSNum.nan) := by
  constructor
  · intro e he
    have hd : (decode dateParse l (JSNum.num t)).duration
        = durationHours (dateParse l.expirationDate) (JSNum.num t) := rfl
    rw [hd, he, durationHours_num]
    refine ⟨rfl, le_max_left 0 _, fun hle => ?_⟩
    have h1 : ((e : ℚ) - (t : ℚ)) / (1000 * 60 * 60) ≤ 0 := by
      apply div_nonpos_iff.mpr
      exact Or.inr ⟨by simpa using Int.cast_le.mpr hle, by norm_num⟩
    have h2 : ⌈((e : ℚ) - (t : ℚ)) / (1000 * 60 * 60)⌉ ≤ 0 := by
      apply Int.ceil_le.mpr
      simpa using h1
    rw [max_eq_left h2]
  · intro hn
    have hd : (decode dateParse l (JSNum.num t)).duration
        = durationHours (dateParse l.expirationDate) (JSNum.num t) := rfl
    rw [hd, hn, durationHours_nan]

/-- Witness for the amended C1: a concrete listing expiring two hours after
the evaluation instant decodes to duration 2; one expiring an hour before
decodes to 0; an unparsable date decodes to NaN. -/
theorem decode_duration_spec_w :
    (decode (fun _ => JSNum.num 7200000) sampleServer (JSNum.num 0)).duration
      = JSNum.num 2 ∧
    (decode (fun _ => JSNum.num 0) sampleServer (JSNum.num 3600000)).duration
      = JSNum.num 0 ∧
    (decode (fun _ => JSNum.nan) sampleServer (JSNum.num 0)).duration = JSNum.nan := by
  refine ⟨?_, ?_, ?_⟩
  · have h := ((decode_duration_spec (fun _ => JSNum.num 7200000) sampleServer 0).1
      7200000 rfl).1
    rw [h]
    norm_num
  · exact ((decode_duration_spec (fun _ => JSNum.num 0) sampleServer 3600000).1
      0 rfl).2.2 (by decide)
  · exact (decode_duration_spec (fun _ => JSNum.nan) sampleServer 0).2 rfl

/-- Counterexample to claim C2 as stated: the map callback of `fetchListings`
executes `const now = new Date()` anew for each record, so when the clock
advances between the reads no single shared evaluation timestamp reproduces
the decoded collection — two identical listings decode to durations of 10
and 5 hours within one refresh. -/
theorem fetch_no_shared_time_cex :
    ¬ ∃ t : ℤ,
      formatListings (fun _ => JSNum.num 36000000) (fun i => 18000000 * (i : ℤ))
          [sampleServer, sampleServer]
        = List.map (fun l => decode (fun _ => JSNum.num 36000000) l (JSNum.num t))
            [sampleServer, sampleServer] := by
  rintro ⟨t, h⟩
  have h2 := congrArg (List.map ViewListing.duration) h
  have hL : List.map ViewListing.duration
      (formatListings (fun _ => JSNum.num 36000000) (fun i => 18000000 * (i : ℤ))
        [sampleServer, sampleServer]) = [JSNum.num 10, JSNum.num 5] := by decide
  rw [hL] at h2
  simp only [List.map_cons, List.map_nil] at h2
  obtain ⟨e1, e2⟩ := List.cons_eq_cons.mp h2
  obtain ⟨e3, -⟩ := List.cons_eq_cons.mp e2
  have e4 : JSNum.num (10 : ℤ) = JSNum.num 5 := e1.trans e3.symm
  exact absurd (JSNum.num.inj e4) (by decide)

/-- Claim C2 (amended): each record is decoded at its own clock reading taken
inside the map callback; whenever every read during one refresh returns the
same instant, the refresh coincides with decoding every record at that one
shared timestamp. -/
theorem fetch_constant_clock (dateParse : String → JSNum) (t : ℤ)
    (data : List ServerListing) :
    formatListings dateParse (fun _ => t) data
      = data.map (fun l => decode dateParse l (JSNum.num t)) :=
  mapDecode_const dateParse t data 0

/-- Claim C8: decode is a pure function of the listing and the evaluation
timestamp — in this embedding it reads nothing else — and it is monotone in
the timestamp: decoding at a later instant yields the same tags, status and
primary image, and a duration smaller than or equal for a parsable
expiration (and the identical NaN for an unparsable one). -/
theorem decode_monotone (dateParse : String → JSNum) (l : ServerListing)
    (t1 t2 : ℤ) (h : t1 ≤ t2) :
    (decode dateParse l (JSNum.num t2)).tags = (decode dateParse l (JSNum.num t1)).tags ∧
    (decode dateParse l (JSNum.num t2)).status = (decode dateParse l (JSNum.num t1)).status ∧
    (decode dateParse l (JSNum.num t2)).image = (decode dateParse l (JSNum.num t1)).image ∧
    (∀ e : ℤ, dateParse l.expirationDate = JSNum.num e →
      ∃ d1 d2 : ℤ,
        (decode dateParse l (JSNum.num t1)).duration = JSNum.num d1 ∧
        (decode dateParse l (JSNum.num t2)).duration = JSNum.num d2 ∧
        d2 ≤ d1) ∧
    (dateParse l.expirationDate = JSNum.nan →
      (decode dateParse l (JSNum.num t2)).duration
        = (decode dateParse l (JSNum.num t1)).duration) := by
  refine ⟨rfl, rfl, rfl, fun e he => ?_, fun hn => ?_⟩
  · refine ⟨max 0 ⌈((e : ℚ) - (t1 : ℚ)) / (1000 * 60 * 60)⌉,
      max 0 ⌈((e : ℚ) - (t2 : ℚ)) / (1000 * 60 * 60)⌉, ?_, ?_, ?_⟩
    · rw [show (decode dateParse l (JSNum.num t1)).duration
        = durationHours (dateParse l.expirationDate) (JSNum.num t1) from rfl,
        he, durationHours_num]
    · rw [show (decode dateParse l (JSNum.num t2)).duration
        = durationHours (dateParse l.expirationDate) (JSNum.num t2) from rfl,
        he, durationHours_num]
    · apply max_le_max le_rfl
      apply Int.ceil_le_ceil
      have hq : (t1 : ℚ) ≤ (t2 : ℚ) := by exact_mod_cast h
      apply div_le_div_of_nonneg_right (by linarith) (by norm_num)
  · rw [show (decode dateParse l (JSNum.num t2)).duration
      = durationHours (dateParse l.expirationDate) (JSNum.num t2) from rfl,
      show (decode dateParse l (JSNum.num t1)).duration
      = durationHours (dateParse l.expirationDate) (JSNum.num t1) from rfl,
      hn, durationHours_nan, durationHours_nan]

/-- Witness for C8 at a concrete listing expiring ten hours after the first
instant, evaluated at two instants five hours apart. -/
theorem decode_monotone_w :
    (0 : ℤ) ≤ 18000000 ∧
    (decode (fun _ => JSNum.num 36000000) sampleServer (JSNum.num 18000000)).tags
      = (decode (fun _ => JSNum.num 36000000) sampleServer (JSNum.num 0)).tags ∧
    (∃ d1 d2 : ℤ,
      (decode (fun _ => JSNum.num 36000000) sampleServer (JSNum.num 0)).duration
        = JSNum.num d1 ∧
      (decode (fun _ => JSNum.num 36000000) sampleServer (JSNum.num 18000000)).duration
        = JSNum.num d2 ∧
      d2 ≤ d1) := by
  have h := decode_monotone (fun _ => JSNum.num 36000000) sampleServer 0 18000000 (by decide)
  exact ⟨by decide, h.1, h.2.2.2.1 36000000 rfl⟩
